import Mathlib

/-!
Verification development for the kindle_bookmark data pipeline
(path resolution, XML metadata extraction, SQLite collection extraction,
merge/deduplication/validation, result caching).

The TypeScript sources are shallowly embedded: JavaScript strings are
Lean Strings, `undefined` is modelled by Option, a thrown exception in a
fallible helper is modelled by Option/Except, JavaScript Map objects are
modelled by total functions with the Map's get-with-default semantics,
and the Node filesystem is modelled by an explicit environment record.
Fields of the source records that no verified property touches
(publisher, dates, content/mime type, origin, tags, cover URL, timings)
are omitted from the embedding; every field that any property reads is
kept with the source behaviour.
-/

namespace KindleBookmark

/-! ### JavaScript string primitives -/

/-- The whitespace characters recognised by the embedding of
JavaScript String.prototype.trim (restricted to the ASCII whitespace
actually occurring in the data handled by the pipeline). -/
def wsChar (c : Char) : Bool :=
  c = ' ' || c = '\t' || c = '\n' || c = '\r' || c = '\x0b' || c = '\x0c'

/-- Character-list version of trim: drop leading and trailing whitespace. -/
def trimList (l : List Char) : List Char :=
  ((l.dropWhile wsChar).reverse.dropWhile wsChar).reverse

/-- Model of JavaScript s.trim(). -/
def jsTrim (s : String) : String :=
  String.mk (trimList s.data)

/-- True when the first list starts with the second. -/
def startsWithChars : List Char → List Char → Bool
  | [], _ => true
  | _ :: _, [] => false
  | a :: p, b :: l => a = b && startsWithChars p l

/-- True when the second list occurs somewhere in the first. -/
def hasSubChars (sub : List Char) : List Char → Bool
  | [] => sub.isEmpty
  | c :: rest => startsWithChars sub (c :: rest) || hasSubChars sub rest

/-- Model of JavaScript s.includes(sub). -/
def jsIncludes (s sub : String) : Bool :=
  hasSubChars sub.data s.data

/-! ### ASIN validation (src/server/src/models/book.ts) -/

/-- A character admitted by the character class of ASIN_PATTERN. -/
def isAsinChar (c : Char) : Bool :=
  ('A' ≤ c && c ≤ 'Z') || ('0' ≤ c && c ≤ '9')

/-- Model of ASIN_PATTERN.test, the regular expression
matching exactly ten characters drawn from uppercase letters and digits. -/
def asinPatternTest (s : String) : Bool :=
  s.data.length == 10 && s.data.all isAsinChar

/-- Model of validateAsin: a false result models the thrown exception.
The source first throws on a falsy (empty) argument, then on a pattern
mismatch, and otherwise returns true. -/
def validateAsin (asin : String) : Bool :=
  if asin = "" then false
  else asinPatternTest asin

/-! ### Data model (src/server/src/models/book.ts) -/

/-- Raw book metadata extracted from the XML file.  The optional source
fields that no verified property reads are omitted. -/
structure BookMetadata where
  asin : String
  title : String
  titlePronunciation : Option String
  author : String
  authorPronunciation : Option String
  deriving DecidableEq, Repr

/-- Integrated book record. -/
structure Book where
  asin : String
  title : String
  author : String
  collections : List String
  deriving DecidableEq, Repr

/-- Collection record (the SQLite-sourced KindleCollection and the
integrated Collection share this shape).  bookCount is an Int because the
source validates against negative counts. -/
structure Collection where
  id : String
  name : String
  bookCount : Int
  deriving DecidableEq, Repr

/-- A book-to-collection association row. -/
structure BookCollectionAssociation where
  bookAsin : String
  collectionId : String
  deriving DecidableEq, Repr

/-! ### XML metadata extraction (src/server/src/services/kindleParser.ts)

xml2js hands the parser a title that is either a plain string or an
object with an optional inline text field and an optional pronunciation
attribute; authors come as a string, one such object, or an array. -/

/-- The title field of a metadata element: a plain string or an
annotated node.  An absent field is Option.none at the use site. -/
inductive TitleVal where
  | str (s : String)
  | node (txt : Option String) (pron : Option String)
  deriving DecidableEq, Repr

/-- One author entry: a plain string or an annotated node. -/
inductive AuthorItem where
  | str (s : String)
  | node (txt : Option String) (pron : Option String)
  deriving DecidableEq, Repr

/-- The authors/author field: a single entry or an array of entries. -/
inductive AuthorsVal where
  | one (a : AuthorItem)
  | many (l : List AuthorItem)
  deriving DecidableEq, Repr

/-- One meta_data element of the XML file, restricted to the fields the
verified properties read.  none models an absent (undefined) field. -/
structure MetadataElement where
  ASIN : Option String
  title : Option TitleVal
  authors : Option AuthorsVal
  deriving DecidableEq, Repr

/-- Model of the JavaScript idiom x._ || x.toString() on an annotated
node: a missing or empty inline text falls back to the object's
toString value. -/
def jsOrToString (txt : Option String) : String :=
  match txt with
  | some s => if s = "" then "[object Object]" else s
  | none => "[object Object]"

/-- Model of KindleXMLParser.extractTitle.  none models the thrown
exception for an absent title field. -/
def extractTitle (t : Option TitleVal) : Option (String × Option String) :=
  match t with
  | some (.str s) => some (jsTrim s, none)
  | some (.node txt pron) => some (jsTrim (jsOrToString txt), pron.map jsTrim)
  | none => none

/-- Model of KindleXMLParser.extractSingleAuthor: name and pronunciation
of one author entry. -/
def extractSingleAuthor (a : AuthorItem) : String × Option String :=
  match a with
  | .str s => (jsTrim s, none)
  | .node txt pron => (jsTrim (jsOrToString txt), pron.map jsTrim)

/-- Model of Array.prototype.join applied with separator ", ". -/
def joinComma : List String → String
  | [] => ""
  | [s] => s
  | s :: rest => s ++ ", " ++ joinComma rest

/-- Model of KindleXMLParser.extractAuthor.  The first component none
models an undefined author (the falsy check also treats an empty author
string as absent). -/
def extractAuthor (authors : Option AuthorsVal) : Option String × Option String :=
  match authors with
  | none => (none, none)
  | some (.one (.str s)) =>
      if s = "" then (none, none) else (some (jsTrim s), none)
  | some (.one (.node txt pron)) =>
      let p := extractSingleAuthor (.node txt pron)
      (some p.1, p.2)
  | some (.many l) =>
      let pairs := l.map extractSingleAuthor
      let names := (pairs.map Prod.fst).filter (fun n => n ≠ "")
      let prons := (pairs.filter (fun p => p.1 ≠ "")).filterMap Prod.snd
        |>.filter (fun q => q ≠ "")
      (if names = [] then none else some (joinComma names),
       if prons = [] then none else some (joinComma prons))

/-- Model of KindleXMLParser.extractSingleBookMetadata.  none models the
internally caught per-element failure (the element is skipped). -/
def extractSingleBookMetadata (m : MetadataElement) : Option BookMetadata :=
  match m.ASIN with
  | none => none
  | some rawAsin =>
    if rawAsin = "" then none
    else
      let asin := jsTrim rawAsin
      if validateAsin asin then
        match extractTitle m.title with
        | none => none
        | some (title, titlePron) =>
          if title = "" then none
          else
            let ap := extractAuthor m.authors
            some { asin := asin
                   title := title
                   titlePronunciation := titlePron
                   author := match ap.1 with
                             | some a => if a = "" then "不明" else a
                             | none => "不明"
                   authorPronunciation := ap.2 }
      else none

/-- Model of KindleXMLParser.processMetadataChunk: extract each element,
keeping the successes. -/
def processMetadataChunk (chunk : List MetadataElement) : List BookMetadata :=
  chunk.filterMap extractSingleBookMetadata

/-- Model of KindleXMLParser.processLargeMetadataList: the list is
processed in chunks of 100 elements. -/
def processLargeMetadataList (l : List MetadataElement) : List BookMetadata :=
  if l = [] then []
  else processMetadataChunk (l.take 100) ++ processLargeMetadataList (l.drop 100)
termination_by l.length
decreasing_by
  simp only [List.length_drop]
  rename_i h
  have : 0 < l.length := List.length_pos.mpr h
  omega

/-! ### Safe record construction and validation
(src/server/src/models/book.ts) -/

/-- Model of createSafeBook restricted to the fields the integrator
passes.  none models the thrown BookValidationError. -/
def createSafeBook (asin title author : String) (collections : List String) :
    Option Book :=
  if asin = "" then none
  else if title = "" then none
  else if author = "" then none
  else if validateAsin asin then
    some { asin := asin
           title := jsTrim title
           author := jsTrim author
           collections := collections.filter (fun c => jsTrim c ≠ "") }
  else none

/-- Model of createSafeCollection.  none models the thrown
BookValidationError; a negative count is clamped to zero. -/
def createSafeCollection (c : Collection) : Option Collection :=
  if c.id = "" then none
  else if c.name = "" then none
  else some { id := jsTrim c.id, name := jsTrim c.name, bookCount := max 0 c.bookCount }

/-- Model of the isValidBook type guard on an already well-typed Book. -/
def isValidBook (b : Book) : Bool :=
  b.asin ≠ "" && b.title ≠ "" && b.author ≠ "" && validateAsin b.asin

/-- Model of the isValidCollection type guard on an already well-typed
Collection. -/
def isValidCollection (c : Collection) : Bool :=
  c.id ≠ "" && c.name ≠ "" && decide (0 ≤ c.bookCount)

/-! ### Collection count recomputation
(src/server/src/services/collectionParser.ts, updateBookCounts) -/

/-- The Map of association counts keyed by collection id, modelled as a
total function with the get-or-zero read used by the source. -/
def bookCountMap (associations : List BookCollectionAssociation) : String → Nat :=
  associations.foldl
    (fun m a => fun k => if k = a.collectionId then m k + 1 else m k)
    (fun _ => 0)

/-- Model of KindleCollectionParser.updateBookCounts: every collection
record receives the number of associations carrying its id (zero when
none do).  The source mutates in place; the model returns the updated
list. -/
def updateBookCounts (collections : List Collection)
    (associations : List BookCollectionAssociation) : List Collection :=
  collections.map (fun c => { c with bookCount := (bookCountMap associations c.id : Int) })

/-! ### Data integration (src/server/src/services/bookDataService.ts) -/

/-- The collection-id to collection-name Map, modelled with Map.set
overwrite semantics (later entries win) and get returning none when the
key is absent. -/
def collectionIdToName (collections : List Collection) : String → Option String :=
  collections.foldl
    (fun m c => fun k => if k = c.id then some c.name else m k)
    (fun _ => none)

/-- Model of BookDataService.buildASINCollectionMapping: walk every
association, resolve the collection name (a missing or empty name skips
the association), and append the name to the book's list unless already
present. -/
def buildASINCollectionMapping (collections : List Collection)
    (associations : List BookCollectionAssociation) : String → List String :=
  let idToName := collectionIdToName collections
  associations.foldl
    (fun m a =>
      match idToName a.collectionId with
      | none => m
      | some name =>
        if name = "" then m
        else fun k =>
          if k = a.bookAsin then
            (if name ∈ m a.bookAsin then m a.bookAsin else m a.bookAsin ++ [name])
          else m k)
    (fun _ => [])

/-- The mutable state of the merge loop in mergeBookData. -/
structure MergeState where
  books : List Book
  seen : List String
  duplicateCount : Nat
  invalidCount : Nat
  deriving DecidableEq, Repr

/-- One iteration of the merge loop: a seen identifier counts as a
duplicate; otherwise a construction failure counts as invalid and a
success appends the book and records the identifier. -/
def mergeStep (asinToCollections : String → List String)
    (st : MergeState) (xmlBook : BookMetadata) : MergeState :=
  if xmlBook.asin ∈ st.seen then
    { st with duplicateCount := st.duplicateCount + 1 }
  else
    match createSafeBook xmlBook.asin xmlBook.title xmlBook.author
        (asinToCollections xmlBook.asin) with
    | some book => { st with books := st.books ++ [book], seen := xmlBook.asin :: st.seen }
    | none => { st with invalidCount := st.invalidCount + 1 }

/-- Result record of mergeBookData. -/
structure MergeResult where
  books : List Book
  collections : List Collection
  duplicateCount : Nat
  invalidCount : Nat
  deriving DecidableEq, Repr

/-- Model of BookDataService.mergeBookData: deduplicating fold over the
raw metadata, then conversion of every collection record (failures
skipped). -/
def mergeBookData (xmlBooks : List BookMetadata) (collections : List Collection)
    (associations : List BookCollectionAssociation) : MergeResult :=
  let asinToCollections := buildASINCollectionMapping collections associations
  let final := xmlBooks.foldl (mergeStep asinToCollections) ⟨[], [], 0, 0⟩
  { books := final.books
    collections := collections.filterMap createSafeCollection
    duplicateCount := final.duplicateCount
    invalidCount := final.invalidCount }

/-- Specification-side description of first-occurrence deduplication,
written from the spec's words for comparison with the merge: the
identifiers in input order, keeping only the first occurrence of each. -/
def specFirstOccurrence (l : List String) : List String :=
  l.foldl (fun acc a => if a ∈ acc then acc else acc ++ [a]) []

/-- Model of BookDataService.validateIntegratedData: books and
collections failing their type guard are dropped and reported in the
error list. -/
def validateIntegratedData (books : List Book) (collections : List Collection) :
    List Book × List Collection × List String :=
  (books.filter isValidBook,
   collections.filter isValidCollection,
   (books.filter (fun b => !isValidBook b)).map
       (fun b => "無効な書籍データ: " ++ (if b.asin = "" then "unknown" else b.asin))
   ++ (collections.filter (fun c => !isValidCollection c)).map
       (fun c => "無効なコレクションデータ: " ++ (if c.id = "" then "unknown" else c.id)))

/-- Integration statistics (timing fields of the source omitted). -/
structure IntegrationStatistics where
  xmlBookCount : Nat
  sqliteCollectionCount : Nat
  finalBookCount : Nat
  finalCollectionCount : Nat
  duplicateBookCount : Nat
  invalidBookCount : Nat
  deriving DecidableEq, Repr

/-- Result record of integrateAllBookData.  errors is the empty list
where the source leaves the field undefined. -/
structure BookDataIntegrationResult where
  books : List Book
  collections : List Collection
  statistics : IntegrationStatistics
  errors : List String
  deriving DecidableEq, Repr

/-- Model of BookDataService.integrateAllBookData for resolved inputs:
XML extraction, collection count recomputation, merge, and final
validation.  Path detection and file I/O are the environment and enter
as the already-parsed element and row lists. -/
def integrateAllBookData (xmlElements : List MetadataElement)
    (sqliteCollections : List Collection)
    (associations : List BookCollectionAssociation) : BookDataIntegrationResult :=
  let xmlBooks := processLargeMetadataList xmlElements
  let countedCollections := updateBookCounts sqliteCollections associations
  let merged := mergeBookData xmlBooks countedCollections associations
  let v := validateIntegratedData merged.books merged.collections
  { books := v.1
    collections := v.2.1
    statistics :=
      { xmlBookCount := xmlBooks.length
        sqliteCollectionCount := countedCollections.length
        finalBookCount := v.1.length
        finalCollectionCount := v.2.1.length
        duplicateBookCount := merged.duplicateCount
        invalidBookCount := merged.invalidCount }
    errors := v.2.2 }

/-! ### Result cache (src/server/src/services/bookService.ts) -/

/-- The five minute cache duration in milliseconds. -/
def CACHE_DURATION : Int := 5 * 60 * 1000

/-- The cache fields of BookService. -/
structure BookServiceState where
  cachedBooks : Option (List Book)
  lastCacheTime : Int
  deriving DecidableEq, Repr

/-- The state of a fresh BookService (cache empty, timestamp zero). -/
def initialBookServiceState : BookServiceState := ⟨none, 0⟩

/-- Model of BookService.getAllBooks.  now is Date.now() at the call;
integration is what integrateAllBookData returns on a cache miss.  The
result carries the outcome (Except.error models the throw), the state
after the call, and whether the pipeline was invoked. -/
def getAllBooks (st : BookServiceState) (now : Int)
    (integration : BookDataIntegrationResult) :
    Except String (List Book) × BookServiceState × Bool :=
  match st.cachedBooks with
  | some books =>
    if now - st.lastCacheTime < CACHE_DURATION then
      (.ok books, st, false)
    else
      freshRun st now integration
  | none => freshRun st now integration
where
  /-- The cache-miss path: a nonempty integration error list throws
  without touching the cache; otherwise the books are stored with the
  call timestamp. -/
  freshRun (st : BookServiceState) (now : Int)
      (integration : BookDataIntegrationResult) :
      Except String (List Book) × BookServiceState × Bool :=
    if integration.errors ≠ [] then
      (.error ("書籍データの統合に失敗: " ++ String.intercalate ", " integration.errors),
       st, true)
    else
      (.ok integration.books, ⟨some integration.books, now⟩, true)

/-- Model of BookService.clearCache. -/
def clearCache (_st : BookServiceState) : BookServiceState := ⟨none, 0⟩

/-! ### Path detection (src/server/src/services/pathDetector.ts)

The Node filesystem and process environment are modelled by an explicit
record.  Paths are treated as POSIX-style strings, the semantics under
which the repository's own test suite exercises this service (the
platform check is skipped there and the plain path module is used). -/

/-- The slice of an fs.Stats result the detector reads.  readable models
fs.access with R_OK succeeding. -/
structure FileStat where
  isFile : Bool
  isDirectory : Bool
  size : Nat
  readable : Bool
  deriving DecidableEq, Repr

/-- The persisted paths.json document. -/
structure PathConfiguration where
  kindleCachePath : String
  lastValidatedMs : Int
  source : String
  deriving DecidableEq, Repr

/-- Model of a PathDetectionResult.  source is a string exactly as in
the TypeScript union of string literals. -/
structure PathDetectionResult where
  success : Bool
  xmlPath : Option String
  dbPath : Option String
  error : Option String
  searchedPaths : List String
  source : String
  deriving DecidableEq, Repr

/-- The process environment and filesystem visible to the detector.
stat returning none models ENOENT; config is the parsed persisted
document when the file exists; nowMs is the clock. -/
structure SysEnv where
  envXmlPath : Option String
  envDbPath : Option String
  envCachePath : Option String
  userProfile : Option String
  localAppData : Option String
  stat : String → Option FileStat
  config : Option PathConfiguration
  nowMs : Int

/-- Split a character list on the path separator. -/
def splitOnSlash : List Char → List (List Char)
  | [] => [[]]
  | c :: rest =>
    if c = '/' then [] :: splitOnSlash rest
    else
      match splitOnSlash rest with
      | [] => [[c]]
      | h :: t => (c :: h) :: t

/-- Model of POSIX path.resolve restricted to the absolute inputs used
in this development: ., empty and .. segments are processed, so a ..
survives only inside a single segment name. -/
def resolvePath (p : String) : String :=
  let segs := ((splitOnSlash p.data).map String.mk).foldl
    (fun acc seg =>
      if seg = "" || seg = "." then acc
      else if seg = ".." then acc.dropLast
      else acc ++ [seg]) []
  "/" ++ String.intercalate "/" segs

/-- Model of POSIX path.join for two components. -/
def joinPath (a b : String) : String := a ++ "/" ++ b

/-- Model of PathDetector.validateFile: the file exists, is readable, is
a regular file and is nonempty.  false models the thrown error of any
failed check. -/
def validateFile (e : SysEnv) (p : String) : Bool :=
  match e.stat p with
  | none => false
  | some st => st.readable && st.isFile && st.size > 0

/-- Model of PathDetector.validateKindlePath: the base directory exists
and is a directory, and both target files validate (the XML file
directly under it, the database under the db subdirectory).  some
carries the resolved pair. -/
def validateKindlePath (e : SysEnv) (basePath : String) : Option (String × String) :=
  match e.stat basePath with
  | none => none
  | some st =>
    if st.isDirectory then
      let xmlPath := joinPath basePath "KindleSyncMetadataCache.xml"
      let dbPath := joinPath (joinPath basePath "db") "synced_collections.db"
      if validateFile e xmlPath && validateFile e dbPath then
        some (xmlPath, dbPath)
      else none
    else none

/-- Model of PathDetector.isValidConfiguration on a well-typed parsed
document (the date is valid by construction of the model). -/
def isValidConfiguration (c : PathConfiguration) : Bool :=
  c.kindleCachePath ≠ "" &&
    (c.source = "auto" || c.source = "manual" || c.source = "env")

/-- Model of PathDetector.getCurrentConfiguration: the persisted
document, when present and valid. -/
def getCurrentConfiguration (e : SysEnv) : Option PathConfiguration :=
  match e.config with
  | none => none
  | some c => if isValidConfiguration c then some c else none

/-- The 24 hour cache validity window in milliseconds. -/
def CACHE_VALIDITY_MS : Int := 24 * 60 * 60 * 1000

/-- Model of PathDetector.loadCachedConfiguration: a persisted, valid,
unexpired configuration whose directory still validates is returned
with the source tag stored in the document. -/
def loadCachedConfiguration (e : SysEnv) : PathDetectionResult :=
  match getCurrentConfiguration e with
  | none =>
    { success := false, xmlPath := none, dbPath := none
      error := some "設定ファイルが見つかりません", searchedPaths := [], source := "auto" }
  | some cfg =>
    if e.nowMs - cfg.lastValidatedMs > CACHE_VALIDITY_MS then
      { success := false, xmlPath := none, dbPath := none
        error := some "キャッシュが期限切れです", searchedPaths := [], source := "auto" }
    else
      match validateKindlePath e cfg.kindleCachePath with
      | some paths =>
        { success := true, xmlPath := some paths.1, dbPath := some paths.2
          error := none, searchedPaths := [cfg.kindleCachePath], source := cfg.source }
      | none =>
        { success := false, xmlPath := none, dbPath := none
          error := some "パス検証エラー", searchedPaths := [cfg.kindleCachePath]
          source := cfg.source }

/-- Model of PathDetector.generatePathCandidates: environment override
first, then the two platform-standard locations, de-duplicated keeping
the first occurrence of each base path. -/
def generatePathCandidates (e : SysEnv) : List (String × String) :=
  let base :=
    (match e.envCachePath with
     | some p => if p ≠ "" then [(resolvePath p, "env")] else []
     | none => []) ++
    (match e.userProfile with
     | some up =>
       [(joinPath (joinPath (joinPath (joinPath (joinPath up "AppData") "Local")
          "Amazon") "Kindle") "Cache", "auto")]
     | none => []) ++
    (match e.localAppData with
     | some lad =>
       [(joinPath (joinPath (joinPath lad "Amazon") "Kindle") "Cache", "auto")]
     | none => [])
  base.foldl (fun acc c => if acc.any (fun d => d.1 = c.1) then acc else acc ++ [c]) []

/-- The environment override branch at the top of detectKindlePaths:
when both per-file overrides are set and both resolve to regular files,
the resolved pair is returned at once with source env.  none models
falling through to the rest of the procedure. -/
def envOverrideResult (e : SysEnv) : Option PathDetectionResult :=
  match e.envXmlPath, e.envDbPath with
  | some x, some d =>
    if x ≠ "" && d ≠ "" then
      let xp := resolvePath x
      let dp := resolvePath d
      match e.stat xp, e.stat dp with
      | some sx, some sd =>
        if sx.isFile && sd.isFile then
          some { success := true, xmlPath := some xp, dbPath := some dp
                 error := none, searchedPaths := [xp, dp], source := "env" }
        else none
      | _, _ => none
    else none
  | _, _ => none

/-- The candidate loop of detectKindlePaths: the first base path that
validates wins. -/
def searchCandidates (e : SysEnv) :
    List (String × String) → Option (String × String × String × String)
  | [] => none
  | c :: rest =>
    match validateKindlePath e c.1 with
    | some paths => some (c.1, c.2, paths.1, paths.2)
    | none => searchCandidates e rest

/-- Model of PathDetector.detectKindlePaths.  The second component is
the configuration written by saveConfiguration, none when nothing is
persisted by the call. -/
def detectKindlePaths (e : SysEnv) (forceUpdate : Bool) :
    PathDetectionResult × Option PathConfiguration :=
  match envOverrideResult e with
  | some r => (r, none)
  | none =>
    let cached := if forceUpdate then none else
      (let cr := loadCachedConfiguration e
       if cr.success then some cr else none)
    match cached with
    | some r => (r, none)
    | none =>
      let candidates := generatePathCandidates e
      match searchCandidates e candidates with
      | some (bp, src, xml, db) =>
        ({ success := true, xmlPath := some xml, dbPath := some db
           error := none, searchedPaths := [bp], source := src },
         some { kindleCachePath := bp, lastValidatedMs := e.nowMs, source := src })
      | none =>
        ({ success := false, xmlPath := none, dbPath := none
           error := some "Kindleファイルが見つかりませんでした"
           searchedPaths := candidates.map (fun c => c.1), source := "auto" },
         none)

/-- A character of the disallowed character class of
validateAndNormalizePath. -/
def invalidPathChar (c : Char) : Bool :=
  c = '<' || c = '>' || c = ':' || c = '"' || c = '|' || c = '?' || c = '*'

/-- Model of PathDetector.validateAndNormalizePath: the trimmed input is
resolved; the resolved path is rejected when it still contains a ..
sequence or one of the disallowed characters. -/
def validateAndNormalizePath (inputPath : String) : Except String String :=
  if inputPath = "" then .error "パスが指定されていません"
  else
    let normalizedPath := resolvePath (jsTrim inputPath)
    if jsIncludes normalizedPath ".." then
      .error "セキュリティ違反: 不正なパスが含まれています"
    else if normalizedPath.data.any invalidPathChar then
      .error "無効な文字が含まれています"
    else .ok normalizedPath

/-- Model of PathDetector.setManualPath.  The second component is the
persisted configuration, none when nothing is saved. -/
def setManualPath (e : SysEnv) (manualPath : String) :
    PathDetectionResult × Option PathConfiguration :=
  match validateAndNormalizePath manualPath with
  | .error msg =>
    ({ success := false, xmlPath := none, dbPath := none
       error := some msg, searchedPaths := [manualPath], source := "manual" },
     none)
  | .ok np =>
    match validateKindlePath e np with
    | some paths =>
      ({ success := true, xmlPath := some paths.1, dbPath := some paths.2
         error := none, searchedPaths := [np], source := "manual" },
       some { kindleCachePath := np, lastValidatedMs := e.nowMs, source := "manual" })
    | none =>
      ({ success := false, xmlPath := none, dbPath := none
         error := some "パス検証エラー", searchedPaths := [np], source := "manual" },
       none)

/-! ### Concrete environments used by the path-resolution properties -/

/-- An environment with no per-file overrides, a fresh valid persisted
configuration at /cache, and a distinct valid auto-detection candidate
under the user profile. -/
def envCacheAndCandidate : SysEnv :=
  { envXmlPath := none, envDbPath := none, envCachePath := none
    userProfile := some "/up", localAppData := none
    stat := fun p =>
      if p = "/cache" || p = "/up/AppData/Local/Amazon/Kindle/Cache" then
        some ⟨false, true, 1, true⟩
      else if p = "/cache/KindleSyncMetadataCache.xml"
          || p = "/cache/db/synced_collections.db"
          || p = "/up/AppData/Local/Amazon/Kindle/Cache/KindleSyncMetadataCache.xml"
          || p = "/up/AppData/Local/Amazon/Kindle/Cache/db/synced_collections.db" then
        some ⟨true, false, 1, true⟩
      else none
    config := some ⟨"/cache", 0, "auto"⟩, nowMs := 1000 }

/-- An environment whose two per-file overrides point at existing,
readable, nonempty regular files, with a persisted configuration also
present. -/
def envOverridesSet : SysEnv :=
  { envXmlPath := some "/x.xml", envDbPath := some "/d.db", envCachePath := none
    userProfile := some "/up", localAppData := none
    stat := fun p =>
      if p = "/x.xml" || p = "/d.db" then some ⟨true, false, 1, true⟩
      else if p = "/cache" then some ⟨false, true, 1, true⟩
      else if p = "/cache/KindleSyncMetadataCache.xml"
          || p = "/cache/db/synced_collections.db" then some ⟨true, false, 1, true⟩
      else none
    config := some ⟨"/cache", 0, "auto"⟩, nowMs := 1000 }

/-- An environment with a valid Kindle cache directory at /kindle, used
by the manual-path properties. -/
def envManualTarget : SysEnv :=
  { envXmlPath := none, envDbPath := none, envCachePath := none
    userProfile := none, localAppData := none
    stat := fun p =>
      if p = "/kindle" then some ⟨false, true, 1, true⟩
      else if p = "/kindle/KindleSyncMetadataCache.xml"
          || p = "/kindle/db/synced_collections.db" then some ⟨true, false, 1, true⟩
      else none
    config := none, nowMs := 7 }

/-! ### Lemmas about the trim model -/

theorem trimList_eq_rdropWhile (l : List Char) :
    trimList l = List.rdropWhile wsChar (l.dropWhile wsChar) := rfl

theorem dropWhile_of_self_cons {a : Char} {l : List Char}
    (h : (a :: l).dropWhile wsChar = a :: l) : wsChar a = false := by
  by_cases hw : wsChar a = true
  · exfalso
    rw [List.dropWhile_cons_of_pos hw] at h
    have hlen := congrArg List.length h
    have hle : (l.dropWhile wsChar).length ≤ l.length :=
      (List.dropWhile_sublist wsChar).length_le
    simp only [List.length_cons] at hlen
    omega
  · exact Bool.not_eq_true _ |>.mp hw

theorem rdropWhile_keeps_head {A : List Char} (hA : A.dropWhile wsChar = A) :
    (List.rdropWhile wsChar A).dropWhile wsChar = List.rdropWhile wsChar A := by
  cases hTc : List.rdropWhile wsChar A with
  | nil => simp
  | cons a t =>
    obtain ⟨u, hu⟩ := List.dropWhile_suffix (l := A.reverse) wsChar
    have hTA : List.rdropWhile wsChar A ++ u.reverse = A := by
      have h2 := congrArg List.reverse hu
      simpa [List.rdropWhile] using h2
    have hAform : A = a :: (t ++ u.reverse) := by
      rw [← hTA, hTc]; simp
    have hna : wsChar a = false := by
      apply dropWhile_of_self_cons (l := t ++ u.reverse)
      rw [← hAform]
      exact hA
    rw [List.dropWhile_cons_of_neg (by simp [hna])]

theorem trimList_idem (l : List Char) : trimList (trimList l) = trimList l := by
  rw [trimList_eq_rdropWhile, trimList_eq_rdropWhile]
  rw [rdropWhile_keeps_head (List.dropWhile_idempotent wsChar l)]
  exact List.rdropWhile_idempotent wsChar (l.dropWhile wsChar)

theorem trimList_eq_nil_iff (l : List Char) :
    trimList l = [] ↔ ∀ c ∈ l, wsChar c = true := by
  rw [trimList_eq_rdropWhile, List.rdropWhile_eq_nil_iff]
  constructor
  · intro h x hx
    cases hD : l.dropWhile wsChar with
    | nil => exact List.dropWhile_eq_nil_iff.mp hD x hx
    | cons a t =>
      exfalso
      have hself : (a :: t).dropWhile wsChar = a :: t := by
        rw [← hD]
        exact List.dropWhile_idempotent wsChar l
      have hna : wsChar a = false := dropWhile_of_self_cons hself
      have hmem : a ∈ l.dropWhile wsChar := by rw [hD]; simp
      have := h a hmem
      rw [hna] at this
      exact Bool.false_ne_true this
  · intro h x hx
    have hsub : x ∈ l := ((List.dropWhile_sublist (l := l) wsChar).mem hx)
    exact h x hsub

theorem jsTrim_idem (s : String) : jsTrim (jsTrim s) = jsTrim s := by
  show String.mk (trimList (String.mk (trimList s.data)).data) = String.mk (trimList s.data)
  rw [show (String.mk (trimList s.data)).data = trimList s.data from rfl, trimList_idem]

theorem jsTrim_eq_empty_iff (s : String) :
    jsTrim s = "" ↔ ∀ c ∈ s.data, wsChar c = true := by
  rw [← trimList_eq_nil_iff]
  constructor
  · intro h
    have := congrArg String.data h
    simpa [jsTrim] using this
  · intro h
    show String.mk (trimList s.data) = ""
    rw [h]

theorem jsTrim_ne_empty_of_mem {s : String} {c : Char}
    (hc : c ∈ s.data) (hw : wsChar c = false) : jsTrim s ≠ "" := by
  intro h
  have := (jsTrim_eq_empty_iff s).mp h c hc
  rw [hw] at this
  exact Bool.false_ne_true this

/-! ### Lemmas about extraction and counting -/

/-- Chunked processing of the metadata list is the same as extracting
element by element. -/
theorem processLargeMetadataList_eq (l : List MetadataElement) :
    processLargeMetadataList l = l.filterMap extractSingleBookMetadata := by
  rw [processLargeMetadataList]
  by_cases h : l = []
  · simp [h]
  · rw [if_neg h, processLargeMetadataList_eq (l.drop 100), processMetadataChunk,
      ← List.filterMap_append, List.take_append_drop]
termination_by l.length
decreasing_by
  simp only [List.length_drop]
  have : 0 < l.length := List.length_pos.mpr h
  omega

/-- The association-count map reads back the number of matching
associations on every key. -/
theorem bookCountMap_eq (associations : List BookCollectionAssociation)
    (k : String) :
    bookCountMap associations k
      = associations.countP (fun a => a.collectionId == k) := by
  suffices h : ∀ (m : String → Nat),
      (associations.foldl
        (fun m a => fun k => if k = a.collectionId then m k + 1 else m k) m) k
      = m k + associations.countP (fun a => a.collectionId == k) by
    simpa [bookCountMap] using h (fun _ => 0)
  induction associations with
  | nil => intro m; simp
  | cons a t ih =>
    intro m
    rw [List.foldl_cons, ih, List.countP_cons]
    by_cases hk : k = a.collectionId
    · simp [hk]
      omega
    · have : (a.collectionId == k) = false := by
        simp [Ne.symm hk]
      simp [hk, this]

/-- C3: after the count recomputation step, every collection record's
book count equals the number of associations whose collection identifier
equals that collection's identifier (zero when none reference it), and
dropping every association whose collection identifier matches no
collection in the list leaves all recomputed counts unchanged. -/
theorem C3_updateBookCounts_counts (collections : List Collection)
    (associations : List BookCollectionAssociation) :
    (updateBookCounts collections associations).map (fun c => (c.id, c.bookCount))
      = collections.map (fun c =>
          (c.id, (associations.countP (fun a => a.collectionId == c.id) : Int)))
    ∧ updateBookCounts collections
        (associations.filter (fun a => collections.any (fun c => c.id == a.collectionId)))
      = updateBookCounts collections associations := by
  constructor
  · simp [updateBookCounts, bookCountMap_eq]
  · unfold updateBookCounts
    apply List.map_congr_left
    intro c hc
    have hcount : bookCountMap
        (associations.filter (fun a => collections.any (fun d => d.id == a.collectionId))) c.id
        = bookCountMap associations c.id := by
      rw [bookCountMap_eq, bookCountMap_eq, List.countP_filter]
      congr 1
      funext a
      by_cases hp : a.collectionId = c.id
      · have hq : collections.any (fun d => d.id == a.collectionId) = true := by
          rw [List.any_eq_true]
          exact ⟨c, hc, by simp [hp]⟩
        rw [hq, Bool.and_true]
      · simp [hp]
    rw [hcount]

/-- C4: validateAsin succeeds exactly on strings of exactly ten
characters each drawn from the uppercase letters and decimal digits;
any other length, any lowercase letter and any other symbol is
rejected. -/
theorem C4_validateAsin_iff (s : String) :
    validateAsin s = true ↔
      (s.data.length = 10 ∧
        ∀ c ∈ s.data, (('A' ≤ c ∧ c ≤ 'Z') ∨ ('0' ≤ c ∧ c ≤ '9'))) := by
  unfold validateAsin asinPatternTest isAsinChar
  by_cases h : s = ""
  · subst h
    simp
  · rw [if_neg h]
    simp [List.all_eq_true]

/-! ### Lemmas about the merge fold -/

theorem createSafeBook_asin {a t u : String} {cols : List String} {b : Book}
    (h : createSafeBook a t u cols = some b) : b.asin = a := by
  unfold createSafeBook at h
  split at h
  · exact absurd h (by simp)
  · split at h
    · exact absurd h (by simp)
    · split at h
      · exact absurd h (by simp)
      · split at h
        · cases h; rfl
        · exact absurd h (by simp)

theorem createSafeBook_eq {a t u : String} {cols : List String}
    (ha : a ≠ "") (ht : t ≠ "") (hu : u ≠ "") (hv : validateAsin a = true) :
    createSafeBook a t u cols
      = some { asin := a, title := jsTrim t, author := jsTrim u
               collections := cols.filter (fun c => jsTrim c ≠ "") } := by
  unfold createSafeBook
  rw [if_neg ha, if_neg ht, if_neg hu, if_pos hv]

theorem mergeStep_seen_sub (M : String → List String) (st : MergeState)
    (x : BookMetadata) : st.seen ⊆ (mergeStep M st x).seen := by
  unfold mergeStep
  split
  · exact fun a ha => ha
  · split
    · exact fun a ha => List.mem_cons_of_mem _ ha
    · exact fun a ha => ha

theorem mergeFold_seen_sub (M : String → List String) (l : List BookMetadata) :
    ∀ st : MergeState, st.seen ⊆ (l.foldl (mergeStep M) st).seen := by
  induction l with
  | nil => intro st; exact fun a ha => ha
  | cons y t ih =>
    intro st
    rw [List.foldl_cons]
    exact fun a ha => ih (mergeStep M st y) (mergeStep_seen_sub M st y ha)

theorem mergeStep_invalid_le (M : String → List String) (st : MergeState)
    (x : BookMetadata) : st.invalidCount ≤ (mergeStep M st x).invalidCount := by
  unfold mergeStep
  split
  · exact Nat.le_refl _
  · split
    · exact Nat.le_refl _
    · exact Nat.le_succ _

theorem mergeFold_invalid_le (M : String → List String) (l : List BookMetadata) :
    ∀ st : MergeState, st.invalidCount ≤ (l.foldl (mergeStep M) st).invalidCount := by
  induction l with
  | nil => intro st; exact Nat.le_refl _
  | cons y t ih =>
    intro st
    rw [List.foldl_cons]
    exact Nat.le_trans (mergeStep_invalid_le M st y) (ih (mergeStep M st y))

/-- Every processed element either has its identifier recorded in the
final seen set or fails safe-book construction. -/
theorem mergeFold_processed (M : String → List String) (l : List BookMetadata) :
    ∀ st : MergeState, ∀ x ∈ l,
      x.asin ∈ (l.foldl (mergeStep M) st).seen ∨
      createSafeBook x.asin x.title x.author (M x.asin) = none := by
  induction l with
  | nil => intro st x hx; cases hx
  | cons y t ih =>
    intro st x hx
    rw [List.foldl_cons]
    rcases List.mem_cons.mp hx with hxy | hxt
    · subst hxy
      by_cases hseen : x.asin ∈ st.seen
      · exact Or.inl (mergeFold_seen_sub M t _ (mergeStep_seen_sub M st x hseen))
      · cases hcs : createSafeBook x.asin x.title x.author (M x.asin) with
        | none => exact Or.inr rfl
        | some b =>
          left
          apply mergeFold_seen_sub M t (mergeStep M st x)
          unfold mergeStep
          rw [if_neg hseen, hcs]
          exact List.mem_cons_self _ _
    · exact ih (mergeStep M st y) x hxt

/-- A pass over elements that are all already seen or unconstructible
changes neither the book list nor the seen set. -/
theorem mergeFold_neutral (M : String → List String) (l : List BookMetadata) :
    ∀ st : MergeState,
      (∀ x ∈ l, x.asin ∈ st.seen ∨
        createSafeBook x.asin x.title x.author (M x.asin) = none) →
      (l.foldl (mergeStep M) st).books = st.books ∧
      (l.foldl (mergeStep M) st).seen = st.seen := by
  induction l with
  | nil => intro st _; exact ⟨rfl, rfl⟩
  | cons y t ih =>
    intro st h
    rw [List.foldl_cons]
    have hstep : (mergeStep M st y).books = st.books ∧
        (mergeStep M st y).seen = st.seen := by
      rcases h y (List.mem_cons_self _ _) with hseen | hnone
      · unfold mergeStep
        rw [if_pos hseen]
        exact ⟨rfl, rfl⟩
      · unfold mergeStep
        by_cases hs : y.asin ∈ st.seen
        · rw [if_pos hs]; exact ⟨rfl, rfl⟩
        · rw [if_neg hs, hnone]; exact ⟨rfl, rfl⟩
    have hrest := ih (mergeStep M st y)
      (by intro x hx
          rcases h x (List.mem_cons_of_mem _ hx) with hseen | hnone
          · exact Or.inl (by rw [hstep.2]; exact hseen)
          · exact Or.inr hnone)
    exact ⟨hrest.1.trans hstep.1, hrest.2.trans hstep.2⟩

/-- With no invalid record in the run, every processed identifier ends
up in the final seen set. -/
theorem mergeFold_all_seen (M : String → List String) (l : List BookMetadata) :
    ∀ st : MergeState,
      (l.foldl (mergeStep M) st).invalidCount = st.invalidCount →
      ∀ x ∈ l, x.asin ∈ (l.foldl (mergeStep M) st).seen := by
  induction l with
  | nil => intro st _ x hx; cases hx
  | cons y t ih =>
    intro st hinv x hx
    rw [List.foldl_cons] at hinv ⊢
    have hmid : (mergeStep M st y).invalidCount = st.invalidCount := by
      have h1 := mergeStep_invalid_le M st y
      have h2 := mergeFold_invalid_le M t (mergeStep M st y)
      omega
    rcases List.mem_cons.mp hx with hxy | hxt
    · subst hxy
      by_cases hseen : x.asin ∈ st.seen
      · exact mergeFold_seen_sub M t _ (mergeStep_seen_sub M st x hseen)
      · cases hcs : createSafeBook x.asin x.title x.author (M x.asin) with
        | some b =>
          apply mergeFold_seen_sub M t (mergeStep M st x)
          unfold mergeStep
          rw [if_neg hseen, hcs]
          exact List.mem_cons_self _ _
        | none =>
          exfalso
          have : (mergeStep M st x).invalidCount = st.invalidCount + 1 := by
            unfold mergeStep
            rw [if_neg hseen, hcs]
          omega
    · exact ih (mergeStep M st y) (hinv.trans hmid.symm) x hxt

/-- A pass over elements whose identifiers are all already seen is pure
duplicate counting. -/
theorem mergeFold_all_dup (M : String → List String) (l : List BookMetadata) :
    ∀ st : MergeState,
      (∀ x ∈ l, x.asin ∈ st.seen) →
      l.foldl (mergeStep M) st
        = { st with duplicateCount := st.duplicateCount + l.length } := by
  induction l with
  | nil => intro st _; simp
  | cons y t ih =>
    intro st h
    rw [List.foldl_cons]
    have hstep : mergeStep M st y = { st with duplicateCount := st.duplicateCount + 1 } := by
      unfold mergeStep
      rw [if_pos (h y (List.mem_cons_self _ _))]
    rw [hstep, ih _ (by intro x hx; exact h x (List.mem_cons_of_mem _ hx))]
    simp [List.length_cons]
    omega

/-! ### Lemmas about extracted metadata -/

theorem mem_joinComma_head {c : Char} {n : String} {rest : List String}
    (hc : c ∈ n.data) : c ∈ (joinComma (n :: rest)).data := by
  cases rest with
  | nil => exact hc
  | cons r rs =>
    show c ∈ (n ++ ", " ++ joinComma (r :: rs)).data
    rw [String.data_append, String.data_append]
    exact List.mem_append_left _ (List.mem_append_left _ hc)

theorem extractSingleAuthor_fst (a : AuthorItem) :
    ∃ y, (extractSingleAuthor a).1 = jsTrim y := by
  cases a with
  | str s => exact ⟨s, rfl⟩
  | node txt pron => exact ⟨jsOrToString txt, rfl⟩

/-- A nonempty trim-fixed string contains a non-whitespace character. -/
theorem exists_non_ws {n : String} (hn : n ≠ "") (hfix : jsTrim n = n) :
    ∃ c ∈ n.data, wsChar c = false := by
  by_contra hall
  push_neg at hall
  have hws : ∀ c ∈ n.data, wsChar c = true := by
    intro c hc
    have := hall c hc
    cases hcase : wsChar c with
    | false => exact absurd hcase this
    | true => rfl
  have := (jsTrim_eq_empty_iff n).mpr hws
  rw [hfix] at this
  exact hn this

theorem extractAuthor_trim_ne {v : Option AuthorsVal} {a : String}
    (h : (extractAuthor v).1 = some a) (ha : a ≠ "") : jsTrim a ≠ "" := by
  match v with
  | none => exact absurd h (by simp [extractAuthor])
  | some (.one (.str s)) =>
    by_cases hs : s = ""
    · rw [extractAuthor] at h
      rw [if_pos hs] at h
      exact absurd h (by simp)
    · rw [extractAuthor] at h
      rw [if_neg hs] at h
      have : a = jsTrim s := by injection h with h2; exact h2.symm
      rw [this, jsTrim_idem]
      rw [this] at ha
      exact ha
  | some (.one (.node txt pron)) =>
    have : a = jsTrim (jsOrToString txt) := by
      rw [extractAuthor] at h
      simp [extractSingleAuthor] at h
      exact h.symm
    rw [this, jsTrim_idem]
    rw [this] at ha
    exact ha
  | some (.many l) =>
    rw [extractAuthor] at h
    simp only at h
    split at h
    · exact absurd h (by simp)
    · rename_i hne
      have haj : a = joinComma ((l.map extractSingleAuthor |>.map Prod.fst).filter
          (fun n => n ≠ "")) := by injection h with h2; exact h2.symm
      cases hnames : (l.map extractSingleAuthor |>.map Prod.fst).filter
          (fun n => n ≠ "") with
      | nil => exact absurd hnames hne
      | cons n rest =>
        have hmemn : n ∈ (l.map extractSingleAuthor |>.map Prod.fst).filter
            (fun m => m ≠ "") := by rw [hnames]; exact List.mem_cons_self _ _
        have hnne : n ≠ "" := by
          have := List.of_mem_filter hmemn
          simpa using this
        have hnfix : jsTrim n = n := by
          have hmem2 : n ∈ (l.map extractSingleAuthor |>.map Prod.fst) :=
            List.mem_of_mem_filter hmemn
          rw [List.map_map] at hmem2
          obtain ⟨it, _, hit⟩ := List.mem_map.mp hmem2
          obtain ⟨y, hy⟩ := extractSingleAuthor_fst it
          rw [← hit]
          show jsTrim (extractSingleAuthor it).1 = (extractSingleAuthor it).1
          rw [hy, jsTrim_idem]
        obtain ⟨c, hc, hcw⟩ := exists_non_ws hnne hnfix
        have hca : c ∈ a.data := by
          rw [haj, hnames]
          exact mem_joinComma_head hc
        exact jsTrim_ne_empty_of_mem hca hcw

/-- The facts the integrator relies on about every successfully
extracted metadata record. -/
theorem extractSingleBookMetadata_props {m : MetadataElement} {b : BookMetadata}
    (h : extractSingleBookMetadata m = some b) :
    validateAsin b.asin = true ∧ b.asin ≠ "" ∧
    b.title ≠ "" ∧ jsTrim b.title = b.title ∧
    b.author ≠ "" ∧ jsTrim b.author ≠ "" := by
  unfold extractSingleBookMetadata at h
  cases hA : m.ASIN with
  | none => rw [hA] at h; exact absurd h (by simp)
  | some rawAsin =>
    rw [hA] at h
    dsimp only at h
    by_cases hraw : rawAsin = ""
    · rw [if_pos hraw] at h; exact absurd h (by simp)
    · rw [if_neg hraw] at h
      split at h
      · rename_i hval
        cases hT : extractTitle m.title with
        | none => rw [hT] at h; exact absurd h (by simp)
        | some tp =>
          rw [hT] at h
          obtain ⟨title, titlePron⟩ := tp
          simp only at h
          split at h
          · exact absurd h (by simp)
          · rename_i htne
            have hb : b = { asin := jsTrim rawAsin, title := title
                            titlePronunciation := titlePron
                            author := match (extractAuthor m.authors).1 with
                                      | some a => if a = "" then "不明" else a
                                      | none => "不明"
                            authorPronunciation := (extractAuthor m.authors).2 } := by
              injection h with h2; exact h2.symm
            have htitle_fix : jsTrim title = title := by
              unfold extractTitle at hT
              match m.title, hT with
              | some (.str s), hT =>
                have : title = jsTrim s := by injection hT with h3; cases h3; rfl
                rw [this, jsTrim_idem]
              | some (.node txt pron), hT =>
                have : title = jsTrim (jsOrToString txt) := by
                  injection hT with h3; cases h3; rfl
                rw [this, jsTrim_idem]
            have hauthor : b.author ≠ "" ∧ jsTrim b.author ≠ "" := by
              rw [hb]
              simp only
              cases hE : (extractAuthor m.authors).1 with
              | none =>
                dsimp only
                constructor
                · decide
                · decide
              | some a =>
                dsimp only
                by_cases haz : a = ""
                · rw [if_pos haz]
                  constructor
                  · decide
                  · decide
                · rw [if_neg haz]
                  exact ⟨haz, extractAuthor_trim_ne hE haz⟩
            refine ⟨?_, ?_, ?_, ?_, hauthor.1, hauthor.2⟩
            · rw [hb]; exact hval
            · rw [hb]
              dsimp only
              intro hcon
              rw [hcon] at hval
              simp [validateAsin] at hval
            · rw [hb]; exact htne
            · rw [hb]; exact htitle_fix
      · exact absurd h (by simp)

/-! ### Lemmas about safe construction and the collection mapping -/

theorem createSafeBook_shape {a t u : String} {cols : List String} {b : Book}
    (h : createSafeBook a t u cols = some b) :
    b = { asin := a, title := jsTrim t, author := jsTrim u
          collections := cols.filter (fun c => jsTrim c ≠ "") }
    ∧ validateAsin a = true := by
  unfold createSafeBook at h
  split at h
  · exact absurd h (by simp)
  · split at h
    · exact absurd h (by simp)
    · split at h
      · exact absurd h (by simp)
      · split at h
        · rename_i hv
          refine ⟨?_, hv⟩
          injection h with h2
          exact h2.symm
        · exact absurd h (by simp)

theorem buildASINCollectionMapping_inv (collections : List Collection)
    (associations : List BookCollectionAssociation) (k : String) :
    "" ∉ buildASINCollectionMapping collections associations k ∧
    (buildASINCollectionMapping collections associations k).Nodup := by
  unfold buildASINCollectionMapping
  suffices h : ∀ (m : String → List String),
      (∀ j, "" ∉ m j ∧ (m j).Nodup) →
      ∀ j, "" ∉ (associations.foldl
        (fun m a =>
          match collectionIdToName collections a.collectionId with
          | none => m
          | some name =>
            if name = "" then m
            else fun k =>
              if k = a.bookAsin then
                (if name ∈ m a.bookAsin then m a.bookAsin else m a.bookAsin ++ [name])
              else m k) m) j ∧
      ((associations.foldl
        (fun m a =>
          match collectionIdToName collections a.collectionId with
          | none => m
          | some name =>
            if name = "" then m
            else fun k =>
              if k = a.bookAsin then
                (if name ∈ m a.bookAsin then m a.bookAsin else m a.bookAsin ++ [name])
              else m k) m) j).Nodup by
    exact h (fun _ => []) (by intro j; exact ⟨by simp, List.nodup_nil⟩) k
  induction associations with
  | nil => intro m hm j; exact hm j
  | cons a t ih =>
    intro m hm j
    rw [List.foldl_cons]
    apply ih
    intro j2
    cases hname : collectionIdToName collections a.collectionId with
    | none => exact hm j2
    | some name =>
      dsimp only
      by_cases hz : name = ""
      · rw [if_pos hz]; exact hm j2
      · rw [if_neg hz]
        by_cases hj : j2 = a.bookAsin
        · rw [if_pos hj]
          by_cases hmem : name ∈ m a.bookAsin
          · rw [if_pos hmem]; exact hm a.bookAsin
          · rw [if_neg hmem]
            constructor
            · intro hin
              rcases List.mem_append.mp hin with h1 | h2
              · exact (hm a.bookAsin).1 h1
              · rw [List.mem_singleton] at h2
                exact hz h2.symm
            · rw [List.nodup_append]
              exact ⟨(hm a.bookAsin).2, List.nodup_singleton _,
                fun x hx hx2 => hmem (by rwa [List.mem_singleton.mp hx2] at hx)⟩
        · rw [if_neg hj]; exact hm j2

/-- Every book produced by the merge fold satisfies the record
invariant, provided the raw metadata entering it was produced by the
extractor. -/
theorem mergeFold_books_inv (M : String → List String)
    (hM : ∀ k, "" ∉ M k ∧ (M k).Nodup) (l : List BookMetadata)
    (hl : ∀ x ∈ l, x.title ≠ "" ∧ jsTrim x.title = x.title ∧ jsTrim x.author ≠ "") :
    ∀ st : MergeState,
      (∀ b ∈ st.books, asinPatternTest b.asin = true ∧ jsTrim b.title ≠ "" ∧
        jsTrim b.author ≠ "" ∧ "" ∉ b.collections ∧ b.collections.Nodup) →
      ∀ b ∈ (l.foldl (mergeStep M) st).books,
        asinPatternTest b.asin = true ∧ jsTrim b.title ≠ "" ∧
        jsTrim b.author ≠ "" ∧ "" ∉ b.collections ∧ b.collections.Nodup := by
  induction l with
  | nil => intro st hst b hb; exact hst b hb
  | cons y t ih =>
    intro st hst b hb
    rw [List.foldl_cons] at hb
    refine ih (by intro x hx; exact hl x (List.mem_cons_of_mem _ hx))
      (mergeStep M st y) ?_ b hb
    intro b2 hb2
    unfold mergeStep at hb2
    split at hb2
    · exact hst b2 hb2
    · rename_i hseen
      cases hcs : createSafeBook y.asin y.title y.author (M y.asin) with
      | none =>
        rw [hcs] at hb2
        exact hst b2 hb2
      | some bk =>
        rw [hcs] at hb2
        dsimp only at hb2
        rcases List.mem_append.mp hb2 with hold | hnew
        · exact hst b2 hold
        · rw [List.mem_singleton] at hnew
          subst hnew
          obtain ⟨hshape, hval⟩ := createSafeBook_shape hcs
          obtain ⟨hty, htfix, hau⟩ := hl y (List.mem_cons_self _ _)
          subst hshape
          refine ⟨?_, ?_, ?_, ?_, ?_⟩
          · dsimp only
            unfold validateAsin at hval
            split at hval
            · exact absurd hval (by simp)
            · exact hval
          · dsimp only
            rw [jsTrim_idem, htfix]
            exact hty
          · dsimp only
            rw [jsTrim_idem]
            exact hau
          · dsimp only
            intro hin
            have h2 := (List.mem_filter.mp hin).2
            have h3 : jsTrim "" ≠ "" := of_decide_eq_true h2
            exact h3 rfl
          · dsimp only
            exact List.Nodup.filter _ (hM y.asin).2

/-- With no invalid record in a run, the merged book identifiers are
exactly the first occurrences of the raw identifiers in input order. -/
theorem mergeFold_books_asins (M : String → List String) (l : List BookMetadata) :
    ∀ (st : MergeState) (acc : List String),
      st.books.map Book.asin = acc →
      (∀ a, a ∈ st.seen ↔ a ∈ acc) →
      (l.foldl (mergeStep M) st).invalidCount = st.invalidCount →
      (l.foldl (mergeStep M) st).books.map Book.asin
        = (l.map BookMetadata.asin).foldl
            (fun acc a => if a ∈ acc then acc else acc ++ [a]) acc := by
  induction l with
  | nil => intro st acc hacc _ _; simpa using hacc
  | cons y t ih =>
    intro st acc hacc hiff hinv
    rw [List.foldl_cons] at hinv ⊢
    rw [List.map_cons, List.foldl_cons]
    have hmid : (mergeStep M st y).invalidCount = st.invalidCount := by
      have h1 := mergeStep_invalid_le M st y
      have h2 := mergeFold_invalid_le M t (mergeStep M st y)
      omega
    by_cases hseen : y.asin ∈ st.seen
    · have hstep : mergeStep M st y = { st with duplicateCount := st.duplicateCount + 1 } := by
        unfold mergeStep
        rw [if_pos hseen]
      have hin : y.asin ∈ acc := (hiff y.asin).mp hseen
      rw [if_pos hin, hstep]
      exact ih _ acc hacc hiff (by rw [hstep] at hinv; exact hinv)
    · have hnin : y.asin ∉ acc := fun hcon => hseen ((hiff y.asin).mpr hcon)
      rw [if_neg hnin]
      cases hcs : createSafeBook y.asin y.title y.author (M y.asin) with
      | none =>
        exfalso
        have : (mergeStep M st y).invalidCount = st.invalidCount + 1 := by
          unfold mergeStep
          rw [if_neg hseen, hcs]
        omega
      | some bk =>
        have hstep : mergeStep M st y
            = { st with books := st.books ++ [bk], seen := y.asin :: st.seen } := by
          unfold mergeStep
          rw [if_neg hseen, hcs]
        rw [hstep]
        apply ih _ (acc ++ [y.asin])
        · rw [List.map_append, hacc]
          simp [createSafeBook_asin hcs]
        · intro a
          rw [List.mem_cons, List.mem_append, List.mem_singleton, hiff a]
          exact or_comm
        · rw [hstep] at hinv
          exact hinv

/-- C2 (amended): merging the concatenation of a raw metadata list with
itself yields the same BookRecord list as merging it once, for every
list; when the single run reports no invalid record, the duplicate
counter of the doubled run exceeds the single run's by exactly the
length of the list, and the merged identifiers are the first
occurrences of the raw identifiers in input order.  The merge is a pure
function of its inputs, hence deterministic. -/
theorem C2_merge_self_append (L : List BookMetadata) (cols : List Collection)
    (assocs : List BookCollectionAssociation) :
    (mergeBookData (L ++ L) cols assocs).books = (mergeBookData L cols assocs).books
    ∧ ((mergeBookData L cols assocs).invalidCount = 0 →
        (mergeBookData (L ++ L) cols assocs).duplicateCount
          = (mergeBookData L cols assocs).duplicateCount + L.length
        ∧ (mergeBookData L cols assocs).books.map Book.asin
            = specFirstOccurrence (L.map BookMetadata.asin)) := by
  constructor
  · show (List.foldl (mergeStep (buildASINCollectionMapping cols assocs))
        ⟨[], [], 0, 0⟩ (L ++ L)).books
      = (List.foldl (mergeStep (buildASINCollectionMapping cols assocs))
        ⟨[], [], 0, 0⟩ L).books
    rw [List.foldl_append]
    exact (mergeFold_neutral _ L _
      (mergeFold_processed _ L ⟨[], [], 0, 0⟩)).1
  · intro hinv
    have hinv' : (List.foldl (mergeStep (buildASINCollectionMapping cols assocs))
        ⟨[], [], 0, 0⟩ L).invalidCount
        = (⟨[], [], 0, 0⟩ : MergeState).invalidCount := hinv
    constructor
    · show (List.foldl (mergeStep (buildASINCollectionMapping cols assocs))
          ⟨[], [], 0, 0⟩ (L ++ L)).duplicateCount
        = (List.foldl (mergeStep (buildASINCollectionMapping cols assocs))
          ⟨[], [], 0, 0⟩ L).duplicateCount + L.length
      rw [List.foldl_append]
      rw [mergeFold_all_dup _ L _ (mergeFold_all_seen _ L _ hinv')]
    · show (List.foldl (mergeStep (buildASINCollectionMapping cols assocs))
          ⟨[], [], 0, 0⟩ L).books.map Book.asin
        = specFirstOccurrence (L.map BookMetadata.asin)
      exact mergeFold_books_asins _ L ⟨[], [], 0, 0⟩ [] rfl (by simp) hinv'

/-- C2 counterexample: for the two-element list repeating one valid
record, the duplicate counter of the doubled run is 3, not the length 2
of the list, refuting the claim as stated. -/
theorem C2_counterexample :
    (mergeBookData
        (([⟨"B000000001", "T", none, "A", none⟩,
           ⟨"B000000001", "T", none, "A", none⟩] : List BookMetadata) ++
         [⟨"B000000001", "T", none, "A", none⟩,
          ⟨"B000000001", "T", none, "A", none⟩]) [] []).duplicateCount
      ≠ ([⟨"B000000001", "T", none, "A", none⟩,
          ⟨"B000000001", "T", none, "A", none⟩] : List BookMetadata).length := by
  decide

/-- C2 witness: the amended statement instantiated at a concrete
one-element valid list, with the no-invalid hypothesis discharged by
computation. -/
theorem C2_merge_self_append_witness :
    (mergeBookData
        (([⟨"B000000001", "T", none, "A", none⟩] : List BookMetadata) ++
         [⟨"B000000001", "T", none, "A", none⟩]) [] []).books
      = (mergeBookData ([⟨"B000000001", "T", none, "A", none⟩] : List BookMetadata)
          [] []).books
    ∧ (mergeBookData
        (([⟨"B000000001", "T", none, "A", none⟩] : List BookMetadata) ++
         [⟨"B000000001", "T", none, "A", none⟩]) [] []).duplicateCount
      = (mergeBookData ([⟨"B000000001", "T", none, "A", none⟩] : List BookMetadata)
          [] []).duplicateCount
        + ([⟨"B000000001", "T", none, "A", none⟩] : List BookMetadata).length
    ∧ (mergeBookData ([⟨"B000000001", "T", none, "A", none⟩] : List BookMetadata)
          [] []).books.map Book.asin
      = specFirstOccurrence
          (([⟨"B000000001", "T", none, "A", none⟩] : List BookMetadata).map
            BookMetadata.asin) :=
  ⟨(C2_merge_self_append [⟨"B000000001", "T", none, "A", none⟩] [] []).1,
   ((C2_merge_self_append [⟨"B000000001", "T", none, "A", none⟩] [] []).2
     (by decide)).1,
   ((C2_merge_self_append [⟨"B000000001", "T", none, "A", none⟩] [] []).2
     (by decide)).2⟩

/-- C8: every BookRecord produced by the integrator satisfies the
record invariant: its identifier matches the ASIN pattern, its title
and author are nonempty after trimming, and its collection-name list
contains no empty string and no duplicate name. -/
theorem C8_integrator_book_invariant (xmlElements : List MetadataElement)
    (cols : List Collection) (assocs : List BookCollectionAssociation) (b : Book)
    (hb : b ∈ (integrateAllBookData xmlElements cols assocs).books) :
    asinPatternTest b.asin = true ∧ jsTrim b.title ≠ "" ∧ jsTrim b.author ≠ "" ∧
    "" ∉ b.collections ∧ b.collections.Nodup := by
  have hb2 : b ∈ (List.foldl
      (mergeStep (buildASINCollectionMapping (updateBookCounts cols assocs) assocs))
      ⟨[], [], 0, 0⟩ (processLargeMetadataList xmlElements)).books := by
    have : (integrateAllBookData xmlElements cols assocs).books
        = (List.foldl
            (mergeStep (buildASINCollectionMapping (updateBookCounts cols assocs) assocs))
            ⟨[], [], 0, 0⟩ (processLargeMetadataList xmlElements)).books.filter
            isValidBook := rfl
    rw [this] at hb
    exact List.mem_of_mem_filter hb
  refine mergeFold_books_inv _ ?_ (processLargeMetadataList xmlElements) ?_
    ⟨[], [], 0, 0⟩ ?_ b hb2
  · intro k
    exact buildASINCollectionMapping_inv (updateBookCounts cols assocs) assocs k
  · intro x hx
    rw [processLargeMetadataList_eq] at hx
    obtain ⟨m, _, hm⟩ := List.mem_filterMap.mp hx
    obtain ⟨_, _, ht, hfix, _, hau⟩ := extractSingleBookMetadata_props hm
    exact ⟨ht, hfix, hau⟩
  · intro b2 hb2
    cases hb2

/-- C8 witness: the invariant instantiated on the book produced by a
concrete pipeline run with one valid element, one collection and one
association. -/
theorem C8_integrator_book_invariant_witness :
    (⟨"B000000001", "Book A", "Auth", ["Favs"]⟩ : Book)
      ∈ (integrateAllBookData
          [⟨some "B000000001", some (.str "Book A"), some (.one (.str "Auth"))⟩]
          [⟨"c1", "Favs", 0⟩] [⟨"B000000001", "c1"⟩]).books
    ∧ (asinPatternTest (⟨"B000000001", "Book A", "Auth", ["Favs"]⟩ : Book).asin = true
       ∧ jsTrim (⟨"B000000001", "Book A", "Auth", ["Favs"]⟩ : Book).title ≠ ""
       ∧ jsTrim (⟨"B000000001", "Book A", "Auth", ["Favs"]⟩ : Book).author ≠ ""
       ∧ "" ∉ (⟨"B000000001", "Book A", "Auth", ["Favs"]⟩ : Book).collections
       ∧ (⟨"B000000001", "Book A", "Auth", ["Favs"]⟩ : Book).collections.Nodup) :=
  ⟨by simp only [integrateAllBookData, processLargeMetadataList_eq]; decide,
   C8_integrator_book_invariant
     [⟨some "B000000001", some (.str "Book A"), some (.one (.str "Auth"))⟩]
     [⟨"c1", "Favs", 0⟩] [⟨"B000000001", "c1"⟩]
     ⟨"B000000001", "Book A", "Auth", ["Favs"]⟩
     (by simp only [integrateAllBookData, processLargeMetadataList_eq]; decide)⟩

/-- C1 (amended): for a metadata file with exactly three elements, one
with a missing ASIN, one valid, and one whose extracted identifier
duplicates the valid one, the pipeline drops the missing-ASIN element
during XML extraction (before integration), so the result holds exactly
one BookRecord, built from the first valid occurrence, and the
integration statistics report duplicate count 1, invalid count 0 and an
XML book total of 2. -/
theorem C1_scenario (e1 e2 e3 : MetadataElement) (b2 b3 : BookMetadata)
    (cols : List Collection) (assocs : List BookCollectionAssociation)
    (h1 : e1.ASIN = none)
    (h2 : extractSingleBookMetadata e2 = some b2)
    (h3 : extractSingleBookMetadata e3 = some b3)
    (hdup : b3.asin = b2.asin) :
    (integrateAllBookData [e1, e2, e3] cols assocs).statistics.xmlBookCount = 2
    ∧ (integrateAllBookData [e1, e2, e3] cols assocs).statistics.duplicateBookCount = 1
    ∧ (integrateAllBookData [e1, e2, e3] cols assocs).statistics.invalidBookCount = 0
    ∧ (integrateAllBookData [e1, e2, e3] cols assocs).statistics.finalBookCount = 1
    ∧ (integrateAllBookData [e1, e2, e3] cols assocs).books.length = 1 := by
  have he1 : extractSingleBookMetadata e1 = none := by
    unfold extractSingleBookMetadata
    rw [h1]
  have hx : processLargeMetadataList [e1, e2, e3] = [b2, b3] := by
    rw [processLargeMetadataList_eq]
    simp [List.filterMap_cons, he1, h2, h3]
  obtain ⟨hval2, hasin2, htitle2, hfix2, hauth2, hautr2⟩ :=
    extractSingleBookMetadata_props h2
  have hcs := @createSafeBook_eq b2.asin b2.title b2.author
    (buildASINCollectionMapping (updateBookCounts cols assocs) assocs b2.asin)
    hasin2 htitle2 hauth2 hval2
  have hstep1 : mergeStep (buildASINCollectionMapping (updateBookCounts cols assocs) assocs)
      ⟨[], [], 0, 0⟩ b2
      = ⟨[{ asin := b2.asin, title := jsTrim b2.title, author := jsTrim b2.author
            collections := (buildASINCollectionMapping
              (updateBookCounts cols assocs) assocs b2.asin).filter
              (fun c => jsTrim c ≠ "") }], [b2.asin], 0, 0⟩ := by
    unfold mergeStep
    rw [if_neg (by simp), hcs]
    dsimp only
    simp
  have hstep2 : mergeStep (buildASINCollectionMapping (updateBookCounts cols assocs) assocs)
      ⟨[{ asin := b2.asin, title := jsTrim b2.title, author := jsTrim b2.author
          collections := (buildASINCollectionMapping
            (updateBookCounts cols assocs) assocs b2.asin).filter
            (fun c => jsTrim c ≠ "") }], [b2.asin], 0, 0⟩ b3
      = ⟨[{ asin := b2.asin, title := jsTrim b2.title, author := jsTrim b2.author
            collections := (buildASINCollectionMapping
              (updateBookCounts cols assocs) assocs b2.asin).filter
              (fun c => jsTrim c ≠ "") }], [b2.asin], 1, 0⟩ := by
    unfold mergeStep
    rw [if_pos (by rw [hdup]; exact List.mem_singleton_self _)]
  have hfold : List.foldl
      (mergeStep (buildASINCollectionMapping (updateBookCounts cols assocs) assocs))
      ⟨[], [], 0, 0⟩ (processLargeMetadataList [e1, e2, e3])
      = ⟨[{ asin := b2.asin, title := jsTrim b2.title, author := jsTrim b2.author
            collections := (buildASINCollectionMapping
              (updateBookCounts cols assocs) assocs b2.asin).filter
              (fun c => jsTrim c ≠ "") }], [b2.asin], 1, 0⟩ := by
    rw [hx, List.foldl_cons, hstep1, List.foldl_cons, hstep2]
    rfl
  have hvb : isValidBook
      { asin := b2.asin, title := jsTrim b2.title, author := jsTrim b2.author
        collections := (buildASINCollectionMapping
          (updateBookCounts cols assocs) assocs b2.asin).filter
          (fun c => jsTrim c ≠ "") } = true := by
    unfold isValidBook
    dsimp only
    rw [hfix2]
    simp [hasin2, htitle2, hautr2, hval2]
  refine ⟨?_, ?_, ?_, ?_, ?_⟩
  · show (processLargeMetadataList [e1, e2, e3]).length = 2
    rw [hx]
    rfl
  · show (List.foldl
      (mergeStep (buildASINCollectionMapping (updateBookCounts cols assocs) assocs))
      ⟨[], [], 0, 0⟩ (processLargeMetadataList [e1, e2, e3])).duplicateCount = 1
    rw [hfold]
  · show (List.foldl
      (mergeStep (buildASINCollectionMapping (updateBookCounts cols assocs) assocs))
      ⟨[], [], 0, 0⟩ (processLargeMetadataList [e1, e2, e3])).invalidCount = 0
    rw [hfold]
  · show ((List.foldl
      (mergeStep (buildASINCollectionMapping (updateBookCounts cols assocs) assocs))
      ⟨[], [], 0, 0⟩ (processLargeMetadataList [e1, e2, e3])).books.filter
        isValidBook).length = 1
    rw [hfold]
    dsimp only
    rw [List.filter_cons, if_pos hvb]
    rfl
  · show ((List.foldl
      (mergeStep (buildASINCollectionMapping (updateBookCounts cols assocs) assocs))
      ⟨[], [], 0, 0⟩ (processLargeMetadataList [e1, e2, e3])).books.filter
        isValidBook).length = 1
    rw [hfold]
    dsimp only
    rw [List.filter_cons, if_pos hvb]
    rfl

/-- C1 counterexample: on the three-element scenario instance (missing
ASIN, valid entry, duplicate of the valid entry) the pipeline yields 1
book, duplicate count 1, invalid count 0 and XML book total 2, refuting
the claimed 2 books, invalid count 1 and total 3. -/
theorem C1_counterexample :
    (integrateAllBookData
        [⟨none, some (.str "T1"), none⟩,
         ⟨some "B000000001", some (.str "Book A"), some (.one (.str "Auth"))⟩,
         ⟨some "B000000001", some (.str "Book A again"), none⟩] [] []).books.length = 1
    ∧ (integrateAllBookData
        [⟨none, some (.str "T1"), none⟩,
         ⟨some "B000000001", some (.str "Book A"), some (.one (.str "Auth"))⟩,
         ⟨some "B000000001", some (.str "Book A again"), none⟩] [] []).statistics.duplicateBookCount = 1
    ∧ (integrateAllBookData
        [⟨none, some (.str "T1"), none⟩,
         ⟨some "B000000001", some (.str "Book A"), some (.one (.str "Auth"))⟩,
         ⟨some "B000000001", some (.str "Book A again"), none⟩] [] []).statistics.invalidBookCount = 0
    ∧ (integrateAllBookData
        [⟨none, some (.str "T1"), none⟩,
         ⟨some "B000000001", some (.str "Book A"), some (.one (.str "Auth"))⟩,
         ⟨some "B000000001", some (.str "Book A again"), none⟩] [] []).statistics.xmlBookCount = 2
    ∧ ¬((integrateAllBookData
          [⟨none, some (.str "T1"), none⟩,
           ⟨some "B000000001", some (.str "Book A"), some (.one (.str "Auth"))⟩,
           ⟨some "B000000001", some (.str "Book A again"), none⟩] [] []).books.length = 2
        ∧ (integrateAllBookData
            [⟨none, some (.str "T1"), none⟩,
             ⟨some "B000000001", some (.str "Book A"), some (.one (.str "Auth"))⟩,
             ⟨some "B000000001", some (.str "Book A again"), none⟩] [] []).statistics.duplicateBookCount = 1
        ∧ (integrateAllBookData
            [⟨none, some (.str "T1"), none⟩,
             ⟨some "B000000001", some (.str "Book A"), some (.one (.str "Auth"))⟩,
             ⟨some "B000000001", some (.str "Book A again"), none⟩] [] []).statistics.invalidBookCount = 1
        ∧ (integrateAllBookData
            [⟨none, some (.str "T1"), none⟩,
             ⟨some "B000000001", some (.str "Book A"), some (.one (.str "Auth"))⟩,
             ⟨some "B000000001", some (.str "Book A again"), none⟩] [] []).statistics.xmlBookCount = 3) := by
  simp only [integrateAllBookData, processLargeMetadataList_eq]
  decide

/-- C1 witness: the amended scenario theorem applied to a concrete
three-element metadata file, with all hypotheses discharged by
computation. -/
theorem C1_scenario_witness :
    (integrateAllBookData
        [⟨none, some (.str "T1"), none⟩,
         ⟨some "B000000001", some (.str "Book A"), some (.one (.str "Auth"))⟩,
         ⟨some "B000000001", some (.str "Book A again"), none⟩] [] []).statistics.xmlBookCount = 2
    ∧ (integrateAllBookData
        [⟨none, some (.str "T1"), none⟩,
         ⟨some "B000000001", some (.str "Book A"), some (.one (.str "Auth"))⟩,
         ⟨some "B000000001", some (.str "Book A again"), none⟩] [] []).statistics.duplicateBookCount = 1
    ∧ (integrateAllBookData
        [⟨none, some (.str "T1"), none⟩,
         ⟨some "B000000001", some (.str "Book A"), some (.one (.str "Auth"))⟩,
         ⟨some "B000000001", some (.str "Book A again"), none⟩] [] []).statistics.invalidBookCount = 0
    ∧ (integrateAllBookData
        [⟨none, some (.str "T1"), none⟩,
         ⟨some "B000000001", some (.str "Book A"), some (.one (.str "Auth"))⟩,
         ⟨some "B000000001", some (.str "Book A again"), none⟩] [] []).statistics.finalBookCount = 1
    ∧ (integrateAllBookData
        [⟨none, some (.str "T1"), none⟩,
         ⟨some "B000000001", some (.str "Book A"), some (.one (.str "Auth"))⟩,
         ⟨some "B000000001", some (.str "Book A again"), none⟩] [] []).books.length = 1 :=
  C1_scenario
    ⟨none, some (.str "T1"), none⟩
    ⟨some "B000000001", some (.str "Book A"), some (.one (.str "Auth"))⟩
    ⟨some "B000000001", some (.str "Book A again"), none⟩
    ⟨"B000000001", "Book A", none, "Auth", none⟩
    ⟨"B000000001", "Book A again", none, "不明", none⟩
    [] [] rfl (by decide) (by decide) rfl

/-! ### Lemmas about the result cache -/

theorem getAllBooks_ok_cache {st : BookServiceState} {now : Int}
    {integration : BookDataIntegrationResult} {b : List Book}
    (h : (getAllBooks st now integration).1 = .ok b) :
    (getAllBooks st now integration).2.1.cachedBooks = some b := by
  obtain ⟨cb, lct⟩ := st
  cases cb with
  | some books =>
    unfold getAllBooks at h ⊢
    dsimp only at h ⊢
    by_cases hfresh : now - lct < CACHE_DURATION
    · rw [if_pos hfresh] at h ⊢
      dsimp only at h ⊢
      injection h with h2
      rw [h2]
    · rw [if_neg hfresh] at h ⊢
      unfold getAllBooks.freshRun at h ⊢
      by_cases herr : integration.errors = []
      · rw [if_neg (by simp [herr])] at h ⊢
        dsimp only at h ⊢
        injection h with h2
        rw [h2]
      · rw [if_pos herr] at h
        exact absurd h (by simp)
  | none =>
    unfold getAllBooks at h ⊢
    dsimp only at h ⊢
    unfold getAllBooks.freshRun at h ⊢
    by_cases herr : integration.errors = []
    · rw [if_neg (by simp [herr])] at h ⊢
      dsimp only at h ⊢
      injection h with h2
      rw [h2]
    · rw [if_pos herr] at h
      exact absurd h (by simp)

/-- C9: a successful call leaves the returned list cached, and a second
call within the five-minute window returns the identical list without
invoking the pipeline and without touching the state; a call on a
populated cache past the window, or any call after clearCache, runs the
pipeline exactly once and stores its (error-free) book list under the
call's timestamp. -/
theorem C9_result_cache_behaviour :
    (∀ (st : BookServiceState) (now1 now2 : Int)
       (i1 i2 : BookDataIntegrationResult) (b : List Book),
      (getAllBooks st now1 i1).1 = .ok b →
      now2 - (getAllBooks st now1 i1).2.1.lastCacheTime < CACHE_DURATION →
      getAllBooks (getAllBooks st now1 i1).2.1 now2 i2
        = (.ok b, (getAllBooks st now1 i1).2.1, false))
    ∧ (∀ (st : BookServiceState) (now : Int) (i : BookDataIntegrationResult)
         (b : List Book),
      st.cachedBooks = some b →
      CACHE_DURATION ≤ now - st.lastCacheTime →
      i.errors = [] →
      getAllBooks st now i = (.ok i.books, ⟨some i.books, now⟩, true))
    ∧ (∀ (st : BookServiceState) (now : Int) (i : BookDataIntegrationResult),
      i.errors = [] →
      getAllBooks (clearCache st) now i
        = (.ok i.books, ⟨some i.books, now⟩, true)) := by
  refine ⟨?_, ?_, ?_⟩
  · intro st now1 now2 i1 i2 b hok hfresh
    have hcache := getAllBooks_ok_cache hok
    generalize hst : (getAllBooks st now1 i1).2.1 = st1 at hcache hfresh ⊢
    unfold getAllBooks
    rw [hcache]
    dsimp only
    rw [if_pos hfresh]
  · intro st now i b hb hexp herr
    unfold getAllBooks
    rw [hb]
    dsimp only
    rw [if_neg (by omega)]
    unfold getAllBooks.freshRun
    rw [if_neg (by rw [herr]; simp)]
  · intro st now i herr
    unfold getAllBooks clearCache
    dsimp only
    unfold getAllBooks.freshRun
    rw [if_neg (by rw [herr]; simp)]

/-- C9 witness: the three cache properties instantiated on concrete
states, times and integration results. -/
theorem C9_result_cache_behaviour_witness :
    getAllBooks
        (getAllBooks ⟨none, 0⟩ 1000 ⟨[⟨"B000000001", "T", "A", []⟩], [], ⟨1, 0, 1, 0, 0, 0⟩, []⟩).2.1
        2000 ⟨[], [], ⟨0, 0, 0, 0, 0, 0⟩, []⟩
      = (.ok [⟨"B000000001", "T", "A", []⟩],
         (getAllBooks ⟨none, 0⟩ 1000 ⟨[⟨"B000000001", "T", "A", []⟩], [], ⟨1, 0, 1, 0, 0, 0⟩, []⟩).2.1,
         false)
    ∧ getAllBooks ⟨some [⟨"B000000001", "T", "A", []⟩], 0⟩ 300000
        ⟨[], [], ⟨0, 0, 0, 0, 0, 0⟩, []⟩
      = (.ok [], ⟨some [], 300000⟩, true)
    ∧ getAllBooks (clearCache ⟨some [⟨"B000000001", "T", "A", []⟩], 0⟩) 7
        ⟨[], [], ⟨0, 0, 0, 0, 0, 0⟩, []⟩
      = (.ok [], ⟨some [], 7⟩, true) :=
  ⟨C9_result_cache_behaviour.1 ⟨none, 0⟩ 1000 2000
      ⟨[⟨"B000000001", "T", "A", []⟩], [], ⟨1, 0, 1, 0, 0, 0⟩, []⟩
      ⟨[], [], ⟨0, 0, 0, 0, 0, 0⟩, []⟩ [⟨"B000000001", "T", "A", []⟩]
      rfl (by decide),
   C9_result_cache_behaviour.2.1 ⟨some [⟨"B000000001", "T", "A", []⟩], 0⟩ 300000
      ⟨[], [], ⟨0, 0, 0, 0, 0, 0⟩, []⟩ [⟨"B000000001", "T", "A", []⟩]
      rfl (by decide) rfl,
   C9_result_cache_behaviour.2.2 ⟨some [⟨"B000000001", "T", "A", []⟩], 0⟩ 7
      ⟨[], [], ⟨0, 0, 0, 0, 0, 0⟩, []⟩ rfl⟩

/-- C10: when the cache is empty and the integration result carries a
nonempty error list, getAllBooks throws instead of returning the
best-effort book list, the pipeline having run once, and the state (and
hence the cache) is left untouched. -/
theorem C10_errors_throw_no_cache (st : BookServiceState) (now : Int)
    (i : BookDataIntegrationResult)
    (hempty : st.cachedBooks = none) (herr : i.errors ≠ []) :
    getAllBooks st now i
      = (.error ("書籍データの統合に失敗: " ++ String.intercalate ", " i.errors),
         st, true) := by
  unfold getAllBooks
  rw [hempty]
  dsimp only
  unfold getAllBooks.freshRun
  rw [if_pos herr]

/-- C10 witness: a concrete integration result with one validation
error is rejected by getAllBooks and the empty cache state is kept. -/
theorem C10_errors_throw_no_cache_witness :
    getAllBooks ⟨none, 0⟩ 5 ⟨[⟨"B000000001", "T", "A", []⟩], [], ⟨1, 1, 1, 0, 0, 0⟩,
        ["無効なコレクションデータ: unknown"]⟩
      = (.error "書籍データの統合に失敗: 無効なコレクションデータ: unknown",
         ⟨none, 0⟩, true) := by
  have h := C10_errors_throw_no_cache ⟨none, 0⟩ 5
    ⟨[⟨"B000000001", "T", "A", []⟩], [], ⟨1, 1, 1, 0, 0, 0⟩,
      ["無効なコレクションデータ: unknown"]⟩ rfl (by decide)
  rw [h]
  rfl

/-! ### Lemmas about path detection -/

theorem envOverrideResult_of_files {e : SysEnv} {x d : String} {sx sd : FileStat}
    (hx : e.envXmlPath = some x) (hd : e.envDbPath = some d)
    (hxne : x ≠ "") (hdne : d ≠ "")
    (hsx : e.stat (resolvePath x) = some sx) (hsd : e.stat (resolvePath d) = some sd)
    (hxf : sx.isFile = true) (hdf : sd.isFile = true) :
    envOverrideResult e
      = some { success := true, xmlPath := some (resolvePath x)
               dbPath := some (resolvePath d), error := none
               searchedPaths := [resolvePath x, resolvePath d], source := "env" } := by
  unfold envOverrideResult
  rw [hx, hd]
  dsimp only
  rw [if_pos (by simp [hxne, hdne])]
  rw [hsx, hsd]
  dsimp only
  rw [if_pos (by simp [hxf, hdf])]

/-- C5 (amended): when both per-file overrides are supplied and each
resolves to an existing, readable, nonempty regular file, every call
returns that pair immediately with the env source, ahead of cache and
auto-detection; and when the override branch does not fire and the
forced-refresh flag is unset, a successfully loaded cached resolution
is the call's result, before any candidate directory is tried. -/
theorem C5_resolution_priority :
    (∀ (e : SysEnv) (forceUpdate : Bool) (x d : String) (sx sd : FileStat),
      e.envXmlPath = some x → e.envDbPath = some d → x ≠ "" → d ≠ "" →
      e.stat (resolvePath x) = some sx → e.stat (resolvePath d) = some sd →
      sx.isFile = true → sx.readable = true → 0 < sx.size →
      sd.isFile = true → sd.readable = true → 0 < sd.size →
      (detectKindlePaths e forceUpdate).1
        = { success := true, xmlPath := some (resolvePath x)
            dbPath := some (resolvePath d), error := none
            searchedPaths := [resolvePath x, resolvePath d], source := "env" })
    ∧ (∀ (e : SysEnv),
      envOverrideResult e = none →
      (loadCachedConfiguration e).success = true →
      (detectKindlePaths e false).1 = loadCachedConfiguration e) := by
  constructor
  · intro e forceUpdate x d sx sd hx hd hxne hdne hsx hsd hxf _ _ hdf _ _
    unfold detectKindlePaths
    rw [envOverrideResult_of_files hx hd hxne hdne hsx hsd hxf hdf]
  · intro e henv hsucc
    unfold detectKindlePaths
    rw [henv]
    dsimp only
    rw [if_pos hsucc]
    simp

/-- C5 counterexample: with the override branch inactive, a fresh valid
persisted resolution at /cache and a valid candidate under /up, a
forced-refresh call ignores the cache and returns the auto-detected
candidate, refuting the unconditional cache-over-auto priority the
claim states for every call. -/
theorem C5_counterexample :
    (loadCachedConfiguration envCacheAndCandidate).success = true
    ∧ (detectKindlePaths envCacheAndCandidate true).1.source = "auto"
    ∧ (detectKindlePaths envCacheAndCandidate true).1.xmlPath
        = some "/up/AppData/Local/Amazon/Kindle/Cache/KindleSyncMetadataCache.xml"
    ∧ (detectKindlePaths envCacheAndCandidate true).1.xmlPath
        ≠ (loadCachedConfiguration envCacheAndCandidate).xmlPath := by
  decide

/-- C5 witness: both parts of the amended priority statement applied to
concrete environments. -/
theorem C5_resolution_priority_witness :
    (detectKindlePaths envOverridesSet true).1
      = { success := true, xmlPath := some (resolvePath "/x.xml")
          dbPath := some (resolvePath "/d.db"), error := none
          searchedPaths := [resolvePath "/x.xml", resolvePath "/d.db"], source := "env" }
    ∧ (detectKindlePaths envCacheAndCandidate false).1
        = loadCachedConfiguration envCacheAndCandidate :=
  ⟨C5_resolution_priority.1 envOverridesSet true "/x.xml" "/d.db"
      ⟨true, false, 1, true⟩ ⟨true, false, 1, true⟩
      rfl rfl (by decide) (by decide) (by decide) (by decide)
      rfl rfl (by decide) rfl rfl (by decide),
   C5_resolution_priority.2 envCacheAndCandidate (by decide) (by decide)⟩

/-- C6 (amended): when the override branch does not fire, the
forced-refresh flag is unset, and a persisted resolution exists, is
valid, is at most 24 hours old and still re-validates, path resolution
returns that resolution tagged with the source recorded in the
persisted configuration (auto, manual or env) rather than a dedicated
cached tag. -/
theorem C6_cached_resolution (e : SysEnv) (cfg : PathConfiguration)
    (paths : String × String)
    (henv : envOverrideResult e = none)
    (hcfg : getCurrentConfiguration e = some cfg)
    (hfresh : e.nowMs - cfg.lastValidatedMs ≤ CACHE_VALIDITY_MS)
    (hvalid : validateKindlePath e cfg.kindleCachePath = some paths) :
    (detectKindlePaths e false).1
      = { success := true, xmlPath := some paths.1, dbPath := some paths.2
          error := none, searchedPaths := [cfg.kindleCachePath]
          source := cfg.source } := by
  have hload : loadCachedConfiguration e
      = { success := true, xmlPath := some paths.1, dbPath := some paths.2
          error := none, searchedPaths := [cfg.kindleCachePath]
          source := cfg.source } := by
    unfold loadCachedConfiguration
    rw [hcfg]
    dsimp only
    rw [if_neg (by omega)]
    rw [hvalid]
  unfold detectKindlePaths
  rw [henv]
  dsimp only
  rw [hload]
  simp

/-- C6 counterexample: a valid, fresh and re-validating persisted
resolution with recorded source auto is returned with source auto;
no result of the detector ever carries a source tag named cached, as
the claim demands. -/
theorem C6_counterexample :
    getCurrentConfiguration envCacheAndCandidate = some ⟨"/cache", 0, "auto"⟩
    ∧ envCacheAndCandidate.nowMs - 0 ≤ CACHE_VALIDITY_MS
    ∧ validateKindlePath envCacheAndCandidate "/cache"
        = some ("/cache/KindleSyncMetadataCache.xml", "/cache/db/synced_collections.db")
    ∧ (detectKindlePaths envCacheAndCandidate false).1.success = true
    ∧ (detectKindlePaths envCacheAndCandidate false).1.source ≠ "cached" := by
  decide

/-- C6 witness: the amended cached-resolution statement applied to a
concrete environment with a fresh valid configuration. -/
theorem C6_cached_resolution_witness :
    (detectKindlePaths envCacheAndCandidate false).1
      = { success := true
          xmlPath := some "/cache/KindleSyncMetadataCache.xml"
          dbPath := some "/cache/db/synced_collections.db"
          error := none, searchedPaths := ["/cache"], source := "auto" } :=
  C6_cached_resolution envCacheAndCandidate ⟨"/cache", 0, "auto"⟩
    ("/cache/KindleSyncMetadataCache.xml", "/cache/db/synced_collections.db")
    (by decide) (by decide) (by decide) (by decide)

/-- C7 (amended): a manual directory input whose normalized (resolved)
form still contains a parent-directory marker or a disallowed character
is rejected by setManualPath with a failure (a security violation for
the marker, an invalid-character error otherwise) and nothing is
persisted; an input whose traversal segments are eliminated by
normalization is not caught by this check. -/
theorem C7_manual_path_security (e : SysEnv) (input : String)
    (hne : input ≠ "")
    (hbad : jsIncludes (resolvePath (jsTrim input)) ".." = true ∨
      (resolvePath (jsTrim input)).data.any invalidPathChar = true) :
    (setManualPath e input).1.success = false ∧ (setManualPath e input).2 = none := by
  unfold setManualPath validateAndNormalizePath
  rw [if_neg hne]
  dsimp only
  by_cases hinc : jsIncludes (resolvePath (jsTrim input)) ".." = true
  · rw [if_pos hinc]
    exact ⟨rfl, rfl⟩
  · rw [if_neg hinc]
    have hany : (resolvePath (jsTrim input)).data.any invalidPathChar = true := by
      rcases hbad with hb | hb
      · exact absurd hb hinc
      · exact hb
    rw [if_pos hany]
    exact ⟨rfl, rfl⟩

/-- C7 counterexample: the input /evil/../kindle contains a traversal
segment, yet its resolved form is /kindle, so setManualPath accepts it
against a valid Kindle directory there and persists the configuration,
refuting the claimed rejection of every input containing a traversal
segment. -/
theorem C7_counterexample :
    jsIncludes "/evil/../kindle" ".." = true
    ∧ (setManualPath envManualTarget "/evil/../kindle").1.success = true
    ∧ (setManualPath envManualTarget "/evil/../kindle").2
        = some ⟨"/kindle", 7, "manual"⟩ := by
  decide

/-- C7 witness: the amended rejection statement applied to an input
whose resolved form keeps a double-dot sequence inside a segment name. -/
theorem C7_manual_path_security_witness :
    jsIncludes (resolvePath (jsTrim "/weird..name")) ".." = true
    ∧ (setManualPath envManualTarget "/weird..name").1.success = false
    ∧ (setManualPath envManualTarget "/weird..name").2 = none :=
  ⟨by decide,
   (C7_manual_path_security envManualTarget "/weird..name" (by decide)
     (Or.inl (by decide))).1,
   (C7_manual_path_security envManualTarget "/weird..name" (by decide)
     (Or.inl (by decide))).2⟩

end KindleBookmark
